import Mathlib

/-!
# Verification of the mcp-screenshot browser-automation engine

A shallow embedding of the orchestration core of `mcp-screenshot.js`
(and the crawler variant's `loginOnPage`), with theorems settling the
frozen specification claims.  Machine integers of the source are
modelled as `Nat`/`Int`; JavaScript `Map`s as association lists that
preserve insertion order; the asynchronous browser driver as explicit
oracles (which DOM predicate would become true, and when); fallible
code as `Except`/`Option`.
-/

namespace MCPScreenshot

/-! ## JavaScript string/number helpers -/

/-- `sub` occurs as a contiguous substring of `s` (JS `String.prototype.includes`). -/
def jsIncludes (s sub : String) : Bool :=
  (s.data.tails.any fun t => sub.data.isPrefixOf t)

/-- `Math.ceil (a / b)` for non-negative integers (`b > 0`). -/
def jsCeilDiv (a b : Nat) : Nat := (a + b - 1) / b

/-- `String.prototype.toLowerCase` (per-character lowercasing). -/
def jsToLower (s : String) : String := ⟨s.data.map Char.toLower⟩

/-! ## Resource Pool Manager: browser pool (`getBrowserInstance`) -/

/-- One entry of `this.browserPool`: the launched browser (identified by
`browserId`) with its bookkeeping timestamps. -/
structure BrowserData where
  browserId : Nat
  created : Nat
  lastUsed : Nat
deriving Repr, DecidableEq

/-- `this.browserPool`: a JS `Map` keyed by the pool key, modelled as an
association list in insertion order. -/
abbrev BrowserPool := List (String × BrowserData)

/-- `this.maxPoolSize = 3`. -/
def maxPoolSize : Nat := 3

/-- `Map.prototype.get`/`has` on the browser pool. -/
def poolFind (pool : BrowserPool) (key : String) : Option BrowserData :=
  (pool.find? fun e => e.1 == key).map Prod.snd

/-- `Map.prototype.delete` on the browser pool. -/
def poolErase (pool : BrowserPool) (key : String) : BrowserPool :=
  pool.eraseP fun e => e.1 == key

/-- `browserData.lastUsed = Date.now()` for the entry stored at `key`
(the JS code mutates the entry object in place, keeping map order). -/
def poolTouch (pool : BrowserPool) (key : String) (now : Nat) : BrowserPool :=
  pool.map fun e => if e.1 == key then (e.1, { e.2 with lastUsed := now }) else e

/-- The `reduce` in `getBrowserInstance`: the first entry (in map
iteration order) whose `lastUsed` is minimal, because the comparison is
strict (`current[1].lastUsed < oldest[1].lastUsed`). -/
def lruEntry : BrowserPool → Option (String × BrowserData)
  | [] => none
  | e :: es =>
    some (es.foldl (fun oldest cur =>
      if cur.2.lastUsed < oldest.2.lastUsed then cur else oldest) e)

/-- What `getBrowserInstance` did and which browser handle it returned. -/
inductive AcquireResult where
  /-- a live pooled entry with the requested key was reused -/
  | reused (id : Nat)
  /-- pool at capacity: the LRU entry (stored at `key`) was handed out -/
  | evictReuse (key : String) (id : Nat)
  /-- a fresh browser was launched and pooled -/
  | created (id : Nat)
deriving Repr, DecidableEq

/-- The part of `getBrowserInstance` after the keyed-reuse attempt:
round-robin reuse at capacity, otherwise launch-and-pool. -/
def acquireAfterMiss (pool : BrowserPool) (key : String) (now fresh : Nat) :
    BrowserPool × AcquireResult :=
  if maxPoolSize ≤ pool.length then
    match lruEntry pool with
    | some (k, bd) => (poolTouch pool k now, .evictReuse k bd.browserId)
    | none => (pool ++ [(key, ⟨fresh, now, now⟩)], .created fresh)
  else
    (pool ++ [(key, ⟨fresh, now, now⟩)], .created fresh)

/-- `getBrowserInstance(key)`.  `alive` is the liveness probe
(`browser.version()` succeeding for the given browser id); `fresh` is
the id the newly launched browser would get; `now` is `Date.now()`. -/
def getBrowserInstance (pool : BrowserPool) (key : String) (alive : Nat → Bool)
    (now fresh : Nat) : BrowserPool × AcquireResult :=
  match poolFind pool key with
  | some bd =>
    if alive bd.browserId then
      (poolTouch pool key now, .reused bd.browserId)
    else
      acquireAfterMiss (poolErase pool key) key now fresh
  | none => acquireAfterMiss pool key now fresh

/-! ## Resource Pool Manager: session cache (`getCachedSession`, `cacheSession`) -/

/-- One cached authenticated session (`this.sessionCache` value). -/
structure CachedSession where
  cookies : List (String × String)
  storage : List (String × String)
  timestamp : Nat
  domain : String
  username : String
deriving Repr, DecidableEq

/-- `this.sessionCache`: a JS `Map` keyed by `` `${domain}_${username}` ``. -/
abbrev SessionCache := List (String × CachedSession)

/-- `this.sessionTTL = 30 * 60 * 1000`. -/
def sessionTTL : Nat := 30 * 60 * 1000

/-- The session key `` `${domain}_${username}` ``. -/
def sessionKey (domain username : String) : String := domain ++ "_" ++ username

/-- `Map.prototype.get` on the session cache. -/
def cacheFind (cache : SessionCache) (key : String) : Option CachedSession :=
  (cache.find? fun e => e.1 == key).map Prod.snd

/-- `Map.prototype.delete` on the session cache. -/
def cacheErase (cache : SessionCache) (key : String) : SessionCache :=
  cache.eraseP fun e => e.1 == key

/-- `Map.prototype.set` on the session cache: overwrite the entry stored
at the key in place (keys are unique in a JS `Map`), otherwise append. -/
def cacheSet : SessionCache → String → CachedSession → SessionCache
  | [], key, v => [(key, v)]
  | e :: es, key, v =>
    if e.1 == key then (e.1, v) :: es else e :: cacheSet es key v

/-- `getCachedSession(domain, username)`: returns the entry while its
age is below the TTL; an expired entry is deleted and `null` returned.
Also returns the updated cache (the JS method mutates `this.sessionCache`). -/
def getCachedSession (cache : SessionCache) (domain username : String) (now : Nat) :
    Option CachedSession × SessionCache :=
  match cacheFind cache (sessionKey domain username) with
  | some s =>
    if now - s.timestamp < sessionTTL then (some s, cache)
    else (none, cacheErase cache (sessionKey domain username))
  | none => (none, cache)

/-- `cacheSession(domain, username, cookies, storage)`. -/
def cacheSession (cache : SessionCache) (domain username : String)
    (cookies storage : List (String × String)) (now : Nat) : SessionCache :=
  cacheSet cache (sessionKey domain username)
    ⟨cookies, storage, now, domain, username⟩

/-! ## Authentication Controller -/

/-- The structural signals the crawler's `loginOnPage` reads from the
current page when checking authentication status. -/
structure AuthPageState where
  /-- full `page.url()` -/
  url : String
  /-- `window.location.pathname` -/
  pathname : String
  /-- `document.title` -/
  title : String
  /-- `document.body.textContent` -/
  bodyText : String
  /-- a `logout`-flavoured affordance matched -/
  hasLogoutButton : Bool
  /-- a user-menu / profile marker matched -/
  hasUserMenu : Bool
  /-- a user-avatar marker matched -/
  hasUserAvatar : Bool
  /-- `document.querySelector('input[type="password"]') !== null` -/
  hasPasswordField : Bool
deriving Repr, DecidableEq

/-- `hasWelcomeMessage` in `loginOnPage`'s page evaluation. -/
def hasWelcomeMessage (s : AuthPageState) : Bool :=
  jsIncludes (jsToLower s.bodyText) "welcome" || jsIncludes (jsToLower s.bodyText) "dashboard"

/-- `authStatus.isAuthenticated`: some authenticated-session indicator present. -/
def sessionIndicatorsPresent (s : AuthPageState) : Bool :=
  s.hasLogoutButton || s.hasUserMenu || s.hasUserAvatar || hasWelcomeMessage s

/-- `authStatus.isOnLoginPage`: login-like path, login title cues, or a
password input present. -/
def loginIndicatorsPresent (s : AuthPageState) : Bool :=
  jsIncludes s.pathname "/login" || jsIncludes s.pathname "/signin" ||
  jsIncludes s.pathname "/auth" || jsIncludes (jsToLower s.title) "login" ||
  jsIncludes (jsToLower s.title) "sign in" || s.hasPasswordField

/-- `loginOnPage`'s already-authenticated early conclusion
(`authStatus.isAuthenticated && !authStatus.isOnLoginPage`). -/
def loginOnPageEarlyAuthenticated (s : AuthPageState) : Bool :=
  sessionIndicatorsPresent s && !loginIndicatorsPresent s

/-- The login-like-URL test used by `handleLoginWithCache` (and
`handleLogin` / the redirect check in `captureScreenshots`). -/
def urlIsLoginLike (url : String) : Bool :=
  jsIncludes url "/login" || jsIncludes url "/signin" || jsIncludes url "/auth"

/-- `handleLoginWithCache`'s cached-restore verification: after restoring
cookies/storage and reloading, the session is declared good when the
current URL is not login-like.  (It inspects only the URL.) -/
def restoreVerifyAuthenticated (reloadedPage : AuthPageState) : Bool :=
  !urlIsLoginLike reloadedPage.url

/-- Observable actions of one `handleLoginWithCache` run. -/
inductive AuthEvent where
  /-- cookies/storage of a cached session were restored and the page reloaded -/
  | restoreAttempt
  /-- the cached session was accepted: concluded authenticated -/
  | restoredAuthenticated
  /-- fell through to `handleLogin` (fresh form login) -/
  | freshLogin
  /-- the fresh session was written to the cache -/
  | cachedNewSession
deriving Repr, DecidableEq

/-- Environment of one `handleLoginWithCache` run: what the browser
driver would do.  `restoreThrows`: restoring cookies/storage or the
reload throws; `reloadedPage`: the page state after the restore reload;
`freshLoginSucceeds`: the outcome `handleLogin` would produce. -/
structure LoginEnv where
  restoreThrows : Bool
  reloadedPage : AuthPageState
  freshLoginSucceeds : Bool
  freshCookies : List (String × String)
  freshStorage : List (String × String)
deriving Repr, DecidableEq

/-- The fresh-login tail of `handleLoginWithCache`: run `handleLogin`,
and on success cache the resulting cookies/storage. -/
def freshLoginPath (cache : SessionCache) (domain username : String) (now : Nat)
    (env : LoginEnv) : Bool × List AuthEvent × SessionCache :=
  if env.freshLoginSucceeds then
    (true, [.freshLogin, .cachedNewSession],
      cacheSession cache domain username env.freshCookies env.freshStorage now)
  else
    (false, [.freshLogin], cache)

/-- `handleLoginWithCache(page, loginCredentials)`: restore a cached
session when a valid one exists, verify it by URL after reload, and
otherwise fall through to a fresh form login. -/
def handleLoginWithCache (cache : SessionCache) (domain username : String)
    (now : Nat) (env : LoginEnv) : Bool × List AuthEvent × SessionCache :=
  match getCachedSession cache domain username now with
  | (some _, cache') =>
    if env.restoreThrows then
      let (ok, evs, c) := freshLoginPath cache' domain username now env
      (ok, .restoreAttempt :: evs, c)
    else if restoreVerifyAuthenticated env.reloadedPage then
      (true, [.restoreAttempt, .restoredAuthenticated], cache')
    else
      let (ok, evs, c) := freshLoginPath cache' domain username now env
      (ok, .restoreAttempt :: evs, c)
  | (none, cache') => freshLoginPath cache' domain username now env

/-! ## Readiness Classifier (`waitForContent`) -/

/-- The structural signals `waitForContent` reads in its initial
`page.evaluate`. -/
structure PageSignals where
  hasCharts : Bool
  hasDataTables : Bool
  hasDynamicContent : Bool
  hasRealtimeData : Bool
  mainContentLen : Nat
  interactiveElements : Nat
  viewportWidth : Nat
  viewportHeight : Nat
  documentHeight : Nat
deriving Repr, DecidableEq

/-- `isDataHeavyPage`. -/
def isDataHeavyPage (s : PageSignals) : Bool :=
  s.hasCharts || s.hasDataTables || s.hasRealtimeData

/-- `isInteractivePage`. -/
def isInteractivePage (s : PageSignals) : Bool :=
  10 < s.interactiveElements

/-- `isLongPage`. -/
def isLongPage (s : PageSignals) : Bool :=
  s.viewportHeight * 2 < s.documentHeight

/-- When each readiness predicate of the page would become true:
`none` means it never would. -/
structure CheckDurations where
  basicContent : Option Nat
  dataElements : Option Nat
  interactiveReady : Option Nat
  noLoading : Option Nat
deriving Repr, DecidableEq

/-- `page.waitForFunction(pred, { timeout })`: resolves with a truthy
value once the predicate holds, rejects when the timeout elapses first.
The result carries (settle time, resolved value). -/
def waitForFunction (d : Option Nat) (timeout : Nat) : Except String (Nat × Bool) :=
  match d with
  | some t => if t ≤ timeout then .ok (t, true) else .error "Timeout"
  | none => .error "Timeout"

/-- The `.catch(() => true)` applied to every readiness check: a check
that cannot be satisfied within its own bound settles at the bound and
is treated as satisfied. -/
def runCheck (d : Option Nat) (timeout : Nat) : Except String (Nat × Bool) :=
  match waitForFunction d timeout with
  | .ok v => .ok v
  | .error _ => .ok (timeout, true)

/-- `Promise.all`: settles when all components have, rejects if any
component rejects. -/
def promiseAll : List (Except String (Nat × Bool)) → Except String (Nat × Bool)
  | [] => .ok (0, true)
  | c :: rest =>
    match c with
    | .error e => .error e
    | .ok (t, b) =>
      match promiseAll rest with
      | .ok (t', b') => .ok (max t t', b && b')
      | .error e => .error e

/-- `Promise.race` of a check bundle against a `setTimeout` ceiling. -/
def raceTimeout (r : Except String (Nat × Bool)) (ceiling : Nat) : Except String Nat :=
  match r with
  | .ok (t, _) => .ok (min t ceiling)
  | .error e => .error e

/-- The hard overall ceiling `waitForContent` races against:
2000 ms in fast mode, 8000 ms for data-heavy pages, else 5000 ms. -/
def overallCeiling (fastMode : Bool) (s : PageSignals) : Nat :=
  if fastMode then 2000 else if isDataHeavyPage s then 8000 else 5000

/-- The check bundle `waitForContent` awaits: checks excluded by the page
profile are `Promise.resolve(true)` (settling immediately). -/
def readinessBundle (fastMode : Bool) (s : PageSignals) (d : CheckDurations) :
    List (Except String (Nat × Bool)) :=
  let basic := runCheck d.basicContent 5000
  let noLoading := runCheck d.noLoading 5000
  if fastMode then
    [basic, noLoading]
  else if isDataHeavyPage s then
    [basic, runCheck d.dataElements 8000, noLoading]
  else
    let inter :=
      if isInteractivePage s then runCheck d.interactiveReady 5000 else .ok (0, true)
    [basic, inter, noLoading]

/-- `this.waitForContent(page, fastMode)`: returns the elapsed wait time,
including the fixed 100 ms settle delay (`page.waitForTimeout(100)`). -/
def waitForContent (s : PageSignals) (d : CheckDurations) (fastMode : Bool) :
    Except String Nat :=
  match raceTimeout (promiseAll (readinessBundle fastMode s d)) (overallCeiling fastMode s) with
  | .ok t => .ok (t + 100)
  | .error e => .error e

/-! ## Selector Resolver (`findElement`) -/

/-- A Playwright locator as constructed by `findElement`'s strategies. -/
inductive Locator where
  /-- `page.locator(sel)` / `page.waitForSelector(sel)` -/
  | css (sel : String)
  /-- `page.locator(sel).first()` -/
  | cssFirst (sel : String)
  /-- `page.getByRole('button', { name: /value/i })` -/
  | roleButton (name : String)
  /-- `page.getByText(/value/i)` -/
  | text (s : String)
  /-- `page.getByLabel(/value/i)` -/
  | label (s : String)
  /-- `page.getByPlaceholder(/value/i)` -/
  | placeholder (s : String)
deriving Repr, DecidableEq

/-- One step of the caller-supplied `interactions` array. -/
structure Interaction where
  action : String
  selector : String
  value : Option String
  waitFor : Option String
  screenshot : Bool
deriving Repr, DecidableEq

/-- JS truthiness of an optional string (`undefined` and `''` are falsy). -/
def jsTruthy : Option String → Bool
  | none => false
  | some s => s ≠ ""

/-- The DOM oracle: whether a bounded wait on the given locator finds a
visible match within its timeout, and whether driving an action on a
resolved locator throws. -/
structure Page where
  locatorReady : Locator → Bool
  actionThrows : String → Locator → Bool

/-- `\w` of JS regexes. -/
def jsWordChar (c : Char) : Bool := c.isAlpha || c.isDigit || c = '_'

/-- `[\w-]` of JS regexes. -/
def jsWordDash (c : Char) : Bool := jsWordChar c || c = '-'

/-- Fix strategy 2: the match of `/^(\w+)(#[\w-]+)/` against the selector. -/
def fixTagId (sel : String) : Option String :=
  let tag := sel.data.takeWhile jsWordChar
  if tag.isEmpty then none
  else
    match sel.data.drop tag.length with
    | '#' :: rest =>
      let id := rest.takeWhile jsWordDash
      if id.isEmpty then none
      else some ⟨tag ++ '#' :: id⟩
    | _ => none

/-- Fix strategy 3: the first match of `/#([\w-]+)/`, returned as `#id`. -/
def findHashId : List Char → Option String
  | [] => none
  | c :: rest =>
    if c = '#' then
      let id := rest.takeWhile jsWordDash
      if id.isEmpty then findHashId rest else some ⟨'#' :: id⟩
    else findHashId rest

/-- Fix strategy 4: the match of `/^(\w+)/`. -/
def fixTag (sel : String) : Option String :=
  let tag := sel.data.takeWhile jsWordChar
  if tag.isEmpty then none else some ⟨tag⟩

/-- Fix strategy 5: the first common class whose bare name occurs in the
selector. -/
def fixCommonClass (sel : String) : Option String :=
  [".btn", ".button", ".link", ".nav", ".menu", ".form", ".input"].find?
    fun cls => jsIncludes sel (cls.drop 1)

/-- The candidate locator proposed by the `i`-th semantic strategy
(`null` when the strategy does not apply to this action/value). -/
def semanticCandidate (it : Interaction) : Nat → Option Locator
  | 0 => if it.action == "click" && jsTruthy it.value then
           some (.roleButton (it.value.getD "")) else none
  | 1 => if jsTruthy it.value then some (.text (it.value.getD "")) else none
  | 2 => if (it.action == "fill" || it.action == "select") && jsTruthy it.value then
           some (.label (it.value.getD "")) else none
  | 3 => if it.action == "fill" && jsTruthy it.value then
           some (.placeholder (it.value.getD "")) else none
  | 4 => if it.action == "click" then some (.cssFirst "button") else none
  | 5 => some (.css ("[data-testid*=\"" ++ it.selector ++ "\"]"))
  | 6 => if jsTruthy it.value then
           some (.css ("[aria-label*=\"" ++ it.value.getD "" ++ "\" i]")) else none
  | 7 => if jsTruthy it.value then
           some (.css ("[title*=\"" ++ it.value.getD "" ++ "\" i]")) else none
  | _ => none

/-- The selector proposed by the `i`-th selector-repair strategy. -/
def fixCandidate (it : Interaction) : Nat → Option String
  | 0 => some (((it.selector.splitOn " ").getLast?).getD "")
  | 1 => fixTagId it.selector
  | 2 => findHashId it.selector.data
  | 3 => fixTag it.selector
  | 4 => fixCommonClass it.selector
  | _ => none

/-- Run one strategy attempt: a proposed locator wins when its bounded
wait finds a match; a strategy that proposes nothing, or whose wait
fails, fails without aborting the cascade. -/
def attemptOf (p : Page) (cand : Option Locator) : Option Locator :=
  match cand with
  | some loc => if p.locatorReady loc then some loc else none
  | none => none

/-- `findElement`'s cascade in order: the direct selector, the eight
semantic fallbacks, then the five selector-repair fallbacks.  Each entry
is (strategy identity, result of the attempt). -/
def attemptList (p : Page) (it : Interaction) : List (String × Option Locator) :=
  ("direct-selector", attemptOf p (some (.css it.selector))) ::
    ((List.range 8).map fun i =>
      ("semantic-" ++ Nat.repr (i + 1), attemptOf p (semanticCandidate it i))) ++
    ((List.range 5).map fun i =>
      ("fixed-" ++ Nat.repr (i + 1),
        attemptOf p ((fixCandidate it i).map Locator.css)))

/-- First successful attempt, with the winning strategy's identity. -/
def firstHit : List (String × Option Locator) → Option (Locator × String)
  | [] => none
  | (nm, some l) :: _ => some (l, nm)
  | (_, none) :: rest => firstHit rest

/-- `this.findElement(page, interaction)`. -/
def findElement (p : Page) (it : Interaction) : Except String (Locator × String) :=
  match firstHit (attemptList p it) with
  | some r => .ok r
  | none => .error ("Could not find element with selector: " ++ it.selector)

/-! ## Interaction engine (`performInteractions`) -/

/-- `parseInt` (radix auto-detection: leading `0x`/`0X` means base 16),
`none` for `NaN`.  Applied to `interaction.value`; a missing value
(`undefined`) stringifies to a non-numeric string, hence `NaN`. -/
def jsParseInt : Option String → Option Int
  | none => none
  | some s =>
    let l := s.data.dropWhile fun c => c = ' ' || c = '\t' || c = '\n' || c = '\r'
    let (sign, l') : Int × List Char :=
      match l with
      | '-' :: r => (-1, r)
      | '+' :: r => (1, r)
      | _ => (1, l)
    let (base, l'') : Nat × List Char :=
      match l' with
      | '0' :: 'x' :: r => (16, r)
      | '0' :: 'X' :: r => (16, r)
      | _ => (10, l')
    let digits := l''.takeWhile fun c =>
      if base = 16 then c.isDigit || ('a' ≤ c && c ≤ 'f') || ('A' ≤ c && c ≤ 'F')
      else c.isDigit
    if digits.isEmpty then none
    else some (sign * (digits.foldl (fun a c => a * base + c.toNat -
      (if c.isDigit then '0'.toNat else if c ≤ 'Z' then 'A'.toNat - 10 else 'a'.toNat - 10)) 0))

/-- The pause of a `wait` step: `parseInt(interaction.value) || 2000`
(`NaN` and `0` both fall back to 2000 ms). -/
def waitPause (v : Option String) : Int :=
  match jsParseInt v with
  | some n => if n = 0 then 2000 else n
  | none => 2000

/-- What one interaction step did. -/
inductive StepOutcome where
  /-- a `wait` step paused for the given milliseconds -/
  | waited (ms : Int)
  /-- the element was resolved (by the named strategy) and the action driven -/
  | performed (strategy : String)
  /-- the step failed (resolution exhausted or the driven action threw):
  an error screenshot was recorded and the sequence continued -/
  | errored
deriving Repr, DecidableEq

/-- A produced capture artifact, identified by its logical name. -/
structure Artifact where
  name : String
deriving Repr, DecidableEq

/-- `` `interaction_${i + 1}_${interaction.action}.png` ``. -/
def interArtName (idx : Nat) (act : String) : String :=
  "interaction_" ++ (Nat.repr (idx + 1) ++ ("_" ++ (act ++ ".png")))

/-- `` `error_interaction_${i + 1}_${interaction.action}.png` ``. -/
def errorArtName (idx : Nat) (act : String) : String :=
  "error_interaction_" ++ (Nat.repr (idx + 1) ++ ("_" ++ (act ++ ".png")))

/-- Process the step at (0-based) position `idx`: `wait` pauses without
touching the resolver; other actions resolve via the cascade and are
driven, recording `interaction_{idx+1}_{action}.png` when a screenshot
is requested and `error_interaction_{idx+1}_{action}.png` on failure. -/
def stepProcess (p : Page) (idx : Nat) (it : Interaction) :
    StepOutcome × Option Artifact :=
  if it.action == "wait" then
    (.waited (waitPause it.value), none)
  else
    match findElement p it with
    | .error _ =>
      (.errored, some ⟨errorArtName idx it.action⟩)
    | .ok (loc, strat) =>
      if p.actionThrows it.action loc then
        (.errored, some ⟨errorArtName idx it.action⟩)
      else
        (.performed strat,
          if it.screenshot then some ⟨interArtName idx it.action⟩ else none)

/-- The loop of `performInteractions`, carrying the 0-based index. -/
def performInteractionsFrom (p : Page) : Nat → List Interaction →
    List StepOutcome × List Artifact
  | _, [] => ([], [])
  | idx, it :: rest =>
    ((stepProcess p idx it).1 :: (performInteractionsFrom p (idx + 1) rest).1,
      (stepProcess p idx it).2.toList ++ (performInteractionsFrom p (idx + 1) rest).2)

/-- `this.performInteractions(page, interactions)`: every step is
processed in order; a failing step records an error artifact and the
sequence continues with the remaining steps. -/
def performInteractions (p : Page) (steps : List Interaction) :
    List StepOutcome × List Artifact :=
  performInteractionsFrom p 0 steps

/-! ## Base-name generation (`generateBaseName`) -/

/-- `[a-zA-Z0-9_-]`. -/
def jsNameChar (c : Char) : Bool := c.isAlpha || c.isDigit || c = '_' || c = '-'

/-- `[a-zA-Z0-9_=&-]` (the query-string variant). -/
def jsQueryChar (c : Char) : Bool := jsNameChar c || c = '=' || c = '&'

/-- `replace(/_+/g, '_')`: collapse runs of underscores (the flag says
whether the previous kept character was an underscore). -/
def collapseUnderscoresAux : Bool → List Char → List Char
  | _, [] => []
  | prevU, c :: rest =>
    if c = '_' then
      if prevU then collapseUnderscoresAux true rest
      else '_' :: collapseUnderscoresAux true rest
    else c :: collapseUnderscoresAux false rest

/-- `replace(/^\/+|\/+$/g, '')`. -/
def trimSlashes (l : List Char) : List Char :=
  ((l.dropWhile (· = '/')).reverse.dropWhile (· = '/')).reverse

/-- `generateBaseName(urlObj)` on the parsed URL's `pathname` and
`search` (the latter includes its leading `?` when non-empty). -/
def generateBaseName (pathname search : String) : String :=
  let name0 := if pathname = "/" then "homepage" else pathname
  let l1 := trimSlashes name0.data
  let l2 := l1.map fun c => if c = '/' then '_' else c
  let l3 := l2.map fun c => if jsNameChar c then c else '_'
  let l4 := (collapseUnderscoresAux false l3).map Char.toLower
  let name1 : String := ⟨l4⟩
  let name2 :=
    if search ≠ "" then
      name1 ++ "_" ++ ⟨(((search.data.drop 1).map fun c =>
        if jsQueryChar c then c else '_').take 30)⟩
    else name1
  if name2 = "" then "page" else name2

/-! ## Scroll Capture Planner (scroll section of `captureScreenshots`) -/

/-- One DOM element as seen by the scroll-container scan. -/
structure ContainerInfo where
  /-- computed `overflow`/`overflowY` is `auto` or `scroll` -/
  overflowScrollable : Bool
  scrollHeight : Nat
  clientHeight : Nat
deriving Repr, DecidableEq

/-- The page metrics gathered before scroll capture. -/
structure ScrollPageInfo where
  windowScrollHeight : Nat
  windowClientHeight : Nat
  viewportHeight : Nat
  /-- every element scanned by `querySelectorAll('*')` -/
  elements : List ContainerInfo
deriving Repr, DecidableEq

/-- The scroll-container filter: scrollable overflow, content taller
than the client box, and a client box over 200 px. -/
def containerQualifies (c : ContainerInfo) : Bool :=
  c.overflowScrollable && decide (c.clientHeight < c.scrollHeight) &&
    decide (200 < c.clientHeight)

/-- `pageInfo.scrollableContainers`. -/
def scrollableContainers (p : ScrollPageInfo) : List ContainerInfo :=
  p.elements.filter containerQualifies

/-- `pageInfo.hasScrollableContainers`. -/
def hasScrollableContainers (p : ScrollPageInfo) : Bool :=
  !(scrollableContainers p).isEmpty

/-- `maxScroll`: the window's scrollable extent. -/
def maxScroll (p : ScrollPageInfo) : Nat :=
  max (p.windowScrollHeight - p.windowClientHeight)
      (p.windowScrollHeight - p.viewportHeight)

/-- `scrollableContainers[0].scrollHeight - scrollableContainers[0].clientHeight || 0`. -/
def containerExtent (p : ScrollPageInfo) : Nat :=
  match scrollableContainers p with
  | [] => 0
  | c :: _ => c.scrollHeight - c.clientHeight

/-- The true maximum extent of the scroll root the loop drives: the
window extent when window scrolling is chosen (`maxScroll > 100`), else
the first qualifying container's extent. -/
def chosenExtent (p : ScrollPageInfo) : Nat :=
  if 100 < maxScroll p then maxScroll p else containerExtent p

/-- `const scrollStep = 800`. -/
def scrollStepSize : Nat := 800

/-- `const maxScrollScreenshots = 10`. -/
def maxScrollScreenshots : Nat := 10

/-- `totalScrollSteps`: the larger of the window-derived and (when a
container exists) container-derived step counts, capped at
`maxScrollScreenshots - 1` (one slot is reserved for the top frame). -/
def totalScrollSteps (p : ScrollPageInfo) : Nat :=
  min
    (max (jsCeilDiv (maxScroll p) scrollStepSize)
      (if hasScrollableContainers p then
        jsCeilDiv (containerExtent p) scrollStepSize else 0))
    (maxScrollScreenshots - 1)

/-- Whether any scroll steps run at all
(`maxScroll > 100 || pageInfo.hasScrollableContainers`). -/
def scrollLoopRuns (p : ScrollPageInfo) : Bool :=
  decide (100 < maxScroll p) || hasScrollableContainers p

/-- The scroll offsets the capture loop drives, in order: step `k`
targets `k * scrollStep` clamped to the chosen root's extent. -/
def scrollOffsets (p : ScrollPageInfo) : List Nat :=
  if scrollLoopRuns p then
    (List.range' 1 (totalScrollSteps p)).map fun k =>
      min (k * scrollStepSize) (chosenExtent p)
  else []

/-- `` `${baseName}_scroll_${screenshotIndex}_top.png` `` (index 0). -/
def scrollTopName (base : String) : String :=
  base ++ ("_scroll_" ++ (Nat.repr 0 ++ "_top.png"))

/-- `` `${baseName}_scroll_${screenshotIndex}_${currentScroll}px.png` ``. -/
def scrollStepName (base : String) (k off : Nat) : String :=
  base ++ ("_scroll_" ++ (Nat.repr k ++ ("_" ++ (Nat.repr off ++ "px.png"))))

/-- `` `${baseName}_fullpage.png` ``. -/
def fullPageName (base : String) : String := base ++ "_fullpage.png"

/-- The scroll-section artifacts: the top frame (screenshot index 0),
then one frame per scroll step, named by index and offset. -/
def scrollArtifacts (base : String) (p : ScrollPageInfo) : List Artifact :=
  ⟨scrollTopName base⟩ ::
    (if scrollLoopRuns p then
      (List.range' 1 (totalScrollSteps p)).map fun k =>
        (⟨scrollStepName base k (min (k * scrollStepSize) (chosenExtent p))⟩ : Artifact)
    else [])

/-! ## Multi-page navigation (`navigatePages`) -/

/-- The environment `navigatePages` runs in: which hrefs each page
exposes (`links`), the `new URL` parse (`parts`, url to
(pathname, search)), and the `navigationFlow` options. -/
structure NavConfig where
  links : String → List String
  parts : String → String × String
  maxDepth : Nat
  exclude : List String
  shotEach : Bool

/-- The recursive `navigate(currentUrl, depth)`: depth-bounded DFS over
the first five discovered links of each page, skipping visited and
excluded URLs and recording `nav_{depth}_{baseName}.png` per page.
`fuel` makes the recursion structural; `maxDepth + 2` levels always
suffice because `depth` grows by one per level and the depth guard cuts
at `maxDepth`. -/
def navigateRec (cfg : NavConfig) : Nat → List String → String → Nat →
    List Artifact × List String
  | 0, visited, _, _ => ([], visited)
  | fuel + 1, visited, url, depth =>
    if cfg.maxDepth < depth || visited.contains url then ([], visited)
    else if cfg.exclude.any (fun pat => jsIncludes url pat) then ([], visited)
    else
      let visited' := url :: visited
      let shot : List Artifact :=
        if cfg.shotEach then
          let (pth, srch) := cfg.parts url
          [⟨"nav_" ++ Nat.repr depth ++ "_" ++ generateBaseName pth srch ++ ".png"⟩]
        else []
      let step := fun (acc : List Artifact × List String) (link : String) =>
        let (arts, vis) := navigateRec cfg fuel acc.2 link (depth + 1)
        (acc.1 ++ arts, vis)
      let (rest, visited'') := ((cfg.links url).take 5).foldl step ([], visited')
      (shot ++ rest, visited'')

/-- `this.navigatePages(page, navigationFlow, baseUrl)`. -/
def navigatePages (cfg : NavConfig) (baseUrl : String) : List Artifact :=
  (navigateRec cfg (cfg.maxDepth + 2) [] baseUrl 0).1

/-! ## Capture orchestration (`captureScreenshots`, main path) -/

/-- The artifact list produced by `captureScreenshots` on its main path
(no redirect diagnostics): interaction artifacts, then navigation-flow
artifacts — which, when present, end the capture early — then the
scroll section and the full-page frame. -/
def captureScreenshots (base : String) (scrollOn fullOn : Bool)
    (interArts navArts : List Artifact) (p : ScrollPageInfo) : List Artifact :=
  interArts ++ navArts ++
    (if navArts.isEmpty then
      (if scrollOn then scrollArtifacts base p else []) ++
        (if fullOn then [⟨fullPageName base⟩] else [])
    else [])

/-! ## Theorems: scroll plan (C1, C2) -/

/-- Adjacent elements of a mapped `range'` are images of consecutive
naturals, so a pointwise step property lifts to `Chain'`. -/
lemma chain'_map_range' {R : ℕ → ℕ → Prop} (f : ℕ → ℕ)
    (h : ∀ k, R (f k) (f (k + 1))) :
    ∀ (n s : ℕ), List.Chain' R ((List.range' s n).map f)
  | 0, _ => by simp
  | n + 1, s => by
    rw [List.range'_succ s n 1, List.map_cons, List.chain'_cons']
    refine ⟨?_, chain'_map_range' f h n (s + 1)⟩
    intro y hy
    cases n with
    | zero => simp at hy
    | succ m =>
      rw [List.range'_succ (s + 1) m 1, List.map_cons] at hy
      simp only [List.head?_cons, Option.mem_def, Option.some.injEq] at hy
      exact hy ▸ h s

/-- A page whose window extent (900 px) picks window scrolling while its
first qualifying container (extent 4700 px) inflates the planned step
count: the clamped final offset is then visited repeatedly. -/
def repeatedClampPage : ScrollPageInfo :=
  ⟨1900, 1000, 1000, [⟨true, 5000, 300⟩]⟩

/-- C1, counterexample: on `repeatedClampPage` the visited offsets are
`[800, 900, 900, 900, 900, 900]` — clamped to the window extent 900 but
not strictly increasing, refuting the claim as stated. -/
theorem c1_counterexample :
    scrollOffsets repeatedClampPage = [800, 900, 900, 900, 900, 900] ∧
    chosenExtent repeatedClampPage = 900 ∧
    ¬ List.Chain' (· < ·) (scrollOffsets repeatedClampPage) := by
  refine ⟨by decide, by decide, ?_⟩
  intro h
  have : List.Chain' (· < ·) ([800, 900, 900, 900, 900, 900] : List ℕ) := by
    have e : scrollOffsets repeatedClampPage = [800, 900, 900, 900, 900, 900] := by decide
    exact e ▸ h
  simp [List.chain'_cons] at this

/-- C1, amended: for every page, the visited scroll offsets are
non-decreasing, strictly increasing while below the chosen scroll
root's true maximum extent, and never exceed that extent (window extent
for window scrolling, first qualifying container's extent otherwise);
only the clamped final offset can repeat. -/
theorem c1_amended (p : ScrollPageInfo) :
    List.Chain' (fun a b => a ≤ b ∧ (a < chosenExtent p → a < b)) (scrollOffsets p) ∧
    ∀ o ∈ scrollOffsets p, o ≤ chosenExtent p := by
  unfold scrollOffsets
  by_cases h : scrollLoopRuns p = true
  · rw [if_pos h]
    constructor
    · refine chain'_map_range' _ (fun k => ?_) (totalScrollSteps p) 1
      have hstep : k * scrollStepSize < (k + 1) * scrollStepSize := by
        rw [Nat.succ_mul]
        have hS : 0 < scrollStepSize := by decide
        omega
      constructor
      · exact min_le_min (Nat.mul_le_mul_right _ (Nat.le_succ k)) le_rfl
      · intro hlt
        have hk : k * scrollStepSize < chosenExtent p := by
          by_contra hc
          push_neg at hc
          rw [min_eq_right hc] at hlt
          exact lt_irrefl _ hlt
        rw [min_eq_left (le_of_lt hk)]
        exact lt_min hstep hk
    · intro o ho
      obtain ⟨k, _, rfl⟩ := List.mem_map.mp ho
      exact min_le_right _ _
  · rw [if_neg h]
    exact ⟨List.chain'_nil, by intro o ho; simp at ho⟩

/-- The C2 scenario page: document height 4000, viewport height 1000,
no in-page scroll containers. -/
def scenarioPage : ScrollPageInfo := ⟨4000, 1000, 1000, []⟩

/-- C2: for `{url: "https://a.test/dash", scrollScreenshots: true,
fullPage: true}` on a page of document height 4000 and viewport height
1000 with step size 800, the artifacts are the top frame, four scroll
frames at 800/1600/2400/3000 px (the fourth target `4 * 800 = 3200`
clamped to the maximum extent 3000), and the full-page frame, in that
order. -/
theorem c2_scenario :
    (captureScreenshots (generateBaseName "/dash" "") true true [] [] scenarioPage).map
        Artifact.name =
      ["dash_scroll_0_top.png", "dash_scroll_1_800px.png", "dash_scroll_2_1600px.png",
        "dash_scroll_3_2400px.png", "dash_scroll_4_3000px.png", "dash_fullpage.png"] ∧
    scrollOffsets scenarioPage = [800, 1600, 2400, 3000] ∧
    chosenExtent scenarioPage = 3000 ∧
    min (4 * scrollStepSize) (chosenExtent scenarioPage) = 3000 := by
  exact ⟨rfl, by decide, by decide, by decide⟩

/-! ## Theorems: browser pool (C3) -/

lemma poolTouch_length (pool : BrowserPool) (key : String) (now : Nat) :
    (poolTouch pool key now).length = pool.length :=
  List.length_map _ _

lemma poolErase_length_le (pool : BrowserPool) (key : String) :
    (poolErase pool key).length ≤ pool.length :=
  (List.eraseP_sublist pool).length_le

lemma acquireAfterMiss_length (pool : BrowserPool) (key : String) (now fresh : Nat)
    (h : pool.length ≤ maxPoolSize) :
    (acquireAfterMiss pool key now fresh).1.length ≤ maxPoolSize := by
  unfold acquireAfterMiss
  by_cases hc : maxPoolSize ≤ pool.length
  · rw [if_pos hc]
    cases pool with
    | nil => exact absurd hc (by decide)
    | cons e es =>
      simp only [lruEntry]
      rcases hx : es.foldl (fun oldest cur =>
          if cur.2.lastUsed < oldest.2.lastUsed then cur else oldest) e with ⟨k, bd⟩
      simpa [poolTouch_length] using h
  · rw [if_neg hc]
    push_neg at hc
    simp only [List.length_append, List.length_cons, List.length_nil]
    omega

/-- C3: acquiring a browser never grows the pool beyond its cap; a live
entry stored at the requested key is reused in place; and when no entry
is stored at the key and the pool is at capacity, the handle of the
first least-recently-used entry is returned with no browser created
(the pool keeps exactly its entries, LRU timestamp refreshed), so pool
exhaustion is unreachable. -/
theorem c3_pool_acquire (pool : BrowserPool) (key : String) (alive : Nat → Bool)
    (now fresh : Nat) (hlen : pool.length ≤ maxPoolSize) :
    (getBrowserInstance pool key alive now fresh).1.length ≤ maxPoolSize ∧
    (∀ bd, poolFind pool key = some bd → alive bd.browserId = true →
      getBrowserInstance pool key alive now fresh =
        (poolTouch pool key now, .reused bd.browserId)) ∧
    (poolFind pool key = none → maxPoolSize ≤ pool.length →
      ∃ k bd, lruEntry pool = some (k, bd) ∧
        getBrowserInstance pool key alive now fresh =
          (poolTouch pool k now, .evictReuse k bd.browserId)) := by
  refine ⟨?_, ?_, ?_⟩
  · unfold getBrowserInstance
    cases hf : poolFind pool key with
    | none => exact acquireAfterMiss_length pool key now fresh hlen
    | some bd =>
      by_cases ha : alive bd.browserId = true
      · simp only [ha, if_true]
        simpa [poolTouch_length] using hlen
      · rw [Bool.not_eq_true] at ha
        simp only [ha, Bool.false_eq_true, if_false]
        exact acquireAfterMiss_length _ key now fresh
          (le_trans (poolErase_length_le pool key) hlen)
  · intro bd hf ha
    simp [getBrowserInstance, hf, ha]
  · intro hf hcap
    cases pool with
    | nil => exact absurd hcap (by decide)
    | cons e es =>
      simp only [getBrowserInstance, hf]
      unfold acquireAfterMiss
      rw [if_pos hcap]
      simp only [lruEntry]
      exact ⟨(es.foldl (fun oldest cur =>
          if cur.2.lastUsed < oldest.2.lastUsed then cur else oldest) e).1,
        (es.foldl (fun oldest cur =>
          if cur.2.lastUsed < oldest.2.lastUsed then cur else oldest) e).2,
        rfl, rfl⟩

/-- C3, witness: a concrete acquisition — pool of three entries, key
absent, capacity reached — returns the LRU entry's browser and keeps
the pool at three entries. -/
theorem c3_witness :
    (getBrowserInstance
      [("a", ⟨1, 0, 50⟩), ("b", ⟨2, 0, 20⟩), ("c", ⟨3, 0, 30⟩)] "d"
      (fun _ => true) 100 4).1.length ≤ maxPoolSize ∧
    getBrowserInstance
        [("a", ⟨1, 0, 50⟩), ("b", ⟨2, 0, 20⟩), ("c", ⟨3, 0, 30⟩)] "d"
        (fun _ => true) 100 4 =
      (poolTouch [("a", ⟨1, 0, 50⟩), ("b", ⟨2, 0, 20⟩), ("c", ⟨3, 0, 30⟩)] "b" 100,
        .evictReuse "b" 2) := by
  have h := c3_pool_acquire
    [("a", ⟨1, 0, 50⟩), ("b", ⟨2, 0, 20⟩), ("c", ⟨3, 0, 30⟩)] "d"
    (fun _ => true) 100 4 (by decide)
  obtain ⟨h1, _, h3⟩ := h
  obtain ⟨k, bd, hlru, heq⟩ := h3 (by decide) (by decide)
  have hl : lruEntry [("a", ⟨1, 0, 50⟩), ("b", ⟨2, 0, 20⟩), ("c", ⟨3, 0, 30⟩)] =
      some ("b", ⟨2, 0, 20⟩) := by decide
  rw [hl] at hlru
  injection hlru with h2
  obtain ⟨rfl, rfl⟩ : "b" = k ∧ (⟨2, 0, 20⟩ : BrowserData) = bd := by
    simpa [Prod.ext_iff] using h2
  exact ⟨h1, heq⟩

/-! ## Theorems: readiness wait (C4) -/

lemma runCheck_ok (d : Option Nat) (tmo : Nat) :
    ∃ t, runCheck d tmo = .ok (t, true) ∧ t ≤ tmo := by
  unfold runCheck waitForFunction
  cases d with
  | none => exact ⟨tmo, rfl, le_rfl⟩
  | some x =>
    by_cases hx : x ≤ tmo
    · exact ⟨x, by simp [hx], hx⟩
    · exact ⟨tmo, by simp [hx], le_rfl⟩

lemma promiseAll_ok_of_all :
    ∀ (l : List (Except String (Nat × Bool))),
      (∀ c ∈ l, ∃ v, c = .ok v) → ∃ v, promiseAll l = .ok v
  | [], _ => ⟨(0, true), rfl⟩
  | c :: rest, h => by
    obtain ⟨⟨t, b⟩, hc⟩ := h c (List.mem_cons_self c rest)
    obtain ⟨⟨t', b'⟩, hr⟩ :=
      promiseAll_ok_of_all rest fun x hx => h x (List.mem_cons_of_mem c hx)
    subst hc
    refine ⟨(max t t', b && b'), ?_⟩
    simp only [promiseAll]
    rw [hr]

lemma promiseAll_bundle_ok (fastMode : Bool) (s : PageSignals) (d : CheckDurations) :
    ∃ v, promiseAll (readinessBundle fastMode s d) = .ok v := by
  refine promiseAll_ok_of_all _ fun c hc => ?_
  unfold readinessBundle at hc
  by_cases hf : fastMode = true
  · simp only [hf, if_true, List.mem_cons, List.mem_singleton, List.not_mem_nil] at hc
    rcases hc with rfl | rfl | hc
    · obtain ⟨t, h, _⟩ := runCheck_ok d.basicContent 5000
      exact ⟨(t, true), h⟩
    · obtain ⟨t, h, _⟩ := runCheck_ok d.noLoading 5000
      exact ⟨(t, true), h⟩
    · exact absurd hc (by simp)
  · rw [Bool.not_eq_true] at hf
    simp only [hf, Bool.false_eq_true, if_false] at hc
    by_cases hh : isDataHeavyPage s = true
    · simp only [hh, if_true, List.mem_cons, List.not_mem_nil] at hc
      rcases hc with rfl | rfl | rfl | hc
      · obtain ⟨t, h, _⟩ := runCheck_ok d.basicContent 5000
        exact ⟨(t, true), h⟩
      · obtain ⟨t, h, _⟩ := runCheck_ok d.dataElements 8000
        exact ⟨(t, true), h⟩
      · obtain ⟨t, h, _⟩ := runCheck_ok d.noLoading 5000
        exact ⟨(t, true), h⟩
      · exact absurd hc (by simp)
    · rw [Bool.not_eq_true] at hh
      simp only [hh, Bool.false_eq_true, if_false, List.mem_cons,
        List.not_mem_nil] at hc
      rcases hc with rfl | rfl | rfl | hc
      · obtain ⟨t, h, _⟩ := runCheck_ok d.basicContent 5000
        exact ⟨(t, true), h⟩
      · by_cases hi : isInteractivePage s = true
        · obtain ⟨t, h, _⟩ := runCheck_ok d.interactiveReady 5000
          exact ⟨(t, true), by simp [hi, h]⟩
        · exact ⟨(0, true), by simp [hi]⟩
      · obtain ⟨t, h, _⟩ := runCheck_ok d.noLoading 5000
        exact ⟨(t, true), h⟩
      · exact absurd hc (by simp)

/-- C4: `waitForContent` never throws — the check bundle always settles
(every individual check that cannot be satisfied within its own timeout
is treated as satisfied at that timeout), the whole wait races against
the hard overall ceiling (8000 ms for data-heavy pages, 5000 ms
otherwise, 2000 ms in fast mode — the shortest), and the fixed 100 ms
settle delay follows. -/
theorem c4_wait_never_throws (s : PageSignals) (d : CheckDurations) (fastMode : Bool) :
    (∃ r, raceTimeout (promiseAll (readinessBundle fastMode s d))
        (overallCeiling fastMode s) = .ok r ∧
      waitForContent s d fastMode = .ok (r + 100) ∧
      r ≤ overallCeiling fastMode s) ∧
    (∀ dur tmo, waitForFunction dur tmo = .error "Timeout" →
      runCheck dur tmo = .ok (tmo, true)) ∧
    overallCeiling true s ≤ overallCeiling false s ∧
    (isDataHeavyPage s = true → overallCeiling false s = 8000) ∧
    (isDataHeavyPage s = false → overallCeiling false s = 5000) ∧
    overallCeiling true s = 2000 := by
  obtain ⟨⟨T, B⟩, hTB⟩ := promiseAll_bundle_ok fastMode s d
  refine ⟨⟨min T (overallCeiling fastMode s), ?_, ?_, min_le_right _ _⟩,
    ?_, ?_, ?_, ?_, rfl⟩
  · simp [raceTimeout, hTB]
  · simp [waitForContent, raceTimeout, hTB]
  · intro dur tmo h
    unfold runCheck
    rw [h]
  · unfold overallCeiling
    by_cases hh : isDataHeavyPage s = true <;> simp [hh]
  · intro h
    simp [overallCeiling, h]
  · intro h
    simp [overallCeiling, h]

/-- C4, witness: on a page where no readiness predicate ever becomes
true, the fast-mode wait still succeeds, settling at the 2000 ms
ceiling plus the 100 ms settle delay. -/
theorem c4_witness :
    waitForContent ⟨false, false, false, false, 0, 0, 0, 0, 0⟩
      ⟨none, none, none, none⟩ true = .ok 2100 := by
  obtain ⟨⟨r, h1, h2, _⟩, _⟩ :=
    c4_wait_never_throws ⟨false, false, false, false, 0, 0, 0, 0, 0⟩
      ⟨none, none, none, none⟩ true
  have hc : raceTimeout
      (promiseAll (readinessBundle true ⟨false, false, false, false, 0, 0, 0, 0, 0⟩
        ⟨none, none, none, none⟩))
      (overallCeiling true ⟨false, false, false, false, 0, 0, 0, 0, 0⟩) = .ok 2000 := by
    rfl
  rw [hc] at h1
  injection h1 with h1
  rw [← h1] at h2
  exact h2

/-! ## Theorems: session cache TTL (C7) -/

lemma cacheFind_cacheSet_self (k : String) (v : CachedSession) :
    ∀ cache : SessionCache, cacheFind (cacheSet cache k v) k = some v
  | [] => by simp [cacheFind, cacheSet]
  | e :: es => by
    by_cases he : e.1 = k
    · subst he
      simp [cacheFind, cacheSet]
    · have ih := cacheFind_cacheSet_self k v es
      simp [cacheFind, cacheSet, he] at ih ⊢
      exact ih

lemma cacheFind_none_of_not_mem_keys (k : String) :
    ∀ cache : SessionCache, k ∉ cache.map Prod.fst → cacheFind cache k = none
  | [], _ => rfl
  | e :: es, h => by
    simp only [List.map_cons, List.mem_cons] at h
    push_neg at h
    have he : (e.1 == k) = false := by
      simp only [beq_eq_false_iff_ne, ne_eq]
      exact fun hc => h.1 hc.symm
    have ih := cacheFind_none_of_not_mem_keys k es h.2
    simp only [cacheFind, List.find?_cons, he] at ih ⊢
    exact ih

lemma cacheFind_cacheErase_self (k : String) :
    ∀ cache : SessionCache, (cache.map Prod.fst).Nodup →
      cacheFind (cacheErase cache k) k = none
  | [], _ => rfl
  | e :: es, h => by
    simp only [List.map_cons, List.nodup_cons] at h
    by_cases he : (e.1 == k) = true
    · have hk : e.1 = k := beq_iff_eq.mp he
      unfold cacheErase
      simp only [List.eraseP_cons, he, cond_true]
      exact cacheFind_none_of_not_mem_keys k es (hk ▸ h.1)
    · rw [Bool.not_eq_true] at he
      have ih := cacheFind_cacheErase_self k es h.2
      unfold cacheErase at ih ⊢
      simp only [List.eraseP_cons, he, cond_false]
      simp [cacheFind, List.find?_cons, he] at ih ⊢
      exact ih

lemma mem_keys_cacheSet (x k : String) (v : CachedSession) :
    ∀ cache : SessionCache,
      x ∈ (cacheSet cache k v).map Prod.fst → x ∈ cache.map Prod.fst ∨ x = k
  | [], h => by
    right
    simpa [cacheSet] using h
  | e :: es, h => by
    by_cases he : e.1 = k
    · subst he
      simp only [cacheSet, beq_self_eq_true, if_true, List.map_cons] at h
      left
      simpa using h
    · have hne : (e.1 == k) = false := beq_eq_false_iff_ne.mpr he
      simp only [cacheSet, hne, Bool.false_eq_true, if_false, List.map_cons,
        List.mem_cons] at h
      rcases h with rfl | h
      · left
        simp
      · rcases mem_keys_cacheSet x k v es h with h' | h'
        · left
          simp only [List.map_cons, List.mem_cons]
          right
          exact h'
        · right
          exact h'

lemma keys_cacheSet_nodup (k : String) (v : CachedSession) :
    ∀ cache : SessionCache, (cache.map Prod.fst).Nodup →
      ((cacheSet cache k v).map Prod.fst).Nodup
  | [], _ => by simp [cacheSet]
  | e :: es, h => by
    simp only [List.map_cons, List.nodup_cons] at h
    by_cases he : e.1 = k
    · subst he
      simp only [cacheSet, beq_self_eq_true, if_true, List.map_cons, List.nodup_cons]
      exact h
    · have hne : (e.1 == k) = false := beq_eq_false_iff_ne.mpr he
      simp only [cacheSet, hne, Bool.false_eq_true, if_false, List.map_cons,
        List.nodup_cons]
      refine ⟨fun hc => ?_, keys_cacheSet_nodup k v es h.2⟩
      rcases mem_keys_cacheSet e.1 k v es hc with h' | h'
      · exact h.1 h'
      · exact he h'

/-- C7: a session cached at time `t` for `(domain, principal)` is
returned by a lookup at `t'` iff `t' - t` is below the 30-minute TTL;
an expired lookup deletes the entry (so it is no longer found) and
returns nothing, and whenever the lookup returns nothing
`handleLoginWithCache` falls through to the fresh-login path. -/
theorem c7_session_cache_ttl (cache : SessionCache) (d u : String)
    (cs ss : List (String × String)) (t t' : Nat) (env : LoginEnv)
    (hts : t ≤ t') (hnd : (cache.map Prod.fst).Nodup) :
    ((getCachedSession (cacheSession cache d u cs ss t) d u t').1 =
      if t' - t < sessionTTL then some ⟨cs, ss, t, d, u⟩ else none) ∧
    (sessionTTL ≤ t' - t →
      cacheFind (getCachedSession (cacheSession cache d u cs ss t) d u t').2
        (sessionKey d u) = none) ∧
    (∀ c : SessionCache, (getCachedSession c d u t').1 = none →
      handleLoginWithCache c d u t' env =
        freshLoginPath (getCachedSession c d u t').2 d u t' env) := by
  have hfind : cacheFind (cacheSession cache d u cs ss t) (sessionKey d u) =
      some ⟨cs, ss, t, d, u⟩ := cacheFind_cacheSet_self _ _ cache
  refine ⟨?_, ?_, ?_⟩
  · by_cases hlt : t' - t < sessionTTL
    · simp [getCachedSession, hfind, hlt]
    · simp [getCachedSession, hfind, hlt]
  · intro hexp
    have hlt : ¬ (t' - t < sessionTTL) := by omega
    simp only [getCachedSession, hfind, hlt, if_false]
    exact cacheFind_cacheErase_self _ _ (keys_cacheSet_nodup _ _ cache hnd)
  · intro c hc
    rcases hg : getCachedSession c d u t' with ⟨o, c2⟩
    rw [hg] at hc
    simp only at hc
    subst hc
    unfold handleLoginWithCache
    rw [hg]

/-- C7, witness: caching at time 0 and looking up at time 1 hits; looking
up the same entry at `sessionTTL` misses, removes it, and the login flow
performs a fresh login. -/
theorem c7_witness :
    ((getCachedSession (cacheSession [] "a.test" "u1" [("sid", "1")] [] 0)
        "a.test" "u1" 1).1 = some ⟨[("sid", "1")], [], 0, "a.test", "u1"⟩) ∧
    ((getCachedSession (cacheSession [] "a.test" "u1" [("sid", "1")] [] 0)
        "a.test" "u1" sessionTTL).1 = none) ∧
    (cacheFind (getCachedSession (cacheSession [] "a.test" "u1" [("sid", "1")] [] 0)
        "a.test" "u1" sessionTTL).2 (sessionKey "a.test" "u1") = none) ∧
    ((handleLoginWithCache [] "a.test" "u1" sessionTTL
        ⟨false, ⟨"https://a.test/dash", "/dash", "t", "b", false, false, false, false⟩,
          true, [], []⟩).2.1.head? = some .freshLogin) := by
  obtain ⟨h1, _, _⟩ := c7_session_cache_ttl [] "a.test" "u1" [("sid", "1")] [] 0 1
    ⟨false, ⟨"https://a.test/dash", "/dash", "t", "b", false, false, false, false⟩,
      true, [], []⟩ (by decide) (by decide)
  obtain ⟨h1', h2', h3'⟩ := c7_session_cache_ttl [] "a.test" "u1" [("sid", "1")] [] 0
    sessionTTL
    ⟨false, ⟨"https://a.test/dash", "/dash", "t", "b", false, false, false, false⟩,
      true, [], []⟩ (by decide) (by decide)
  refine ⟨by rw [h1]; decide, by rw [h1']; decide, h2' (by decide), ?_⟩
  rw [h3' [] (by decide)]
  decide

/-! ## Theorems: selector-resolution cascade (C5) -/

lemma firstHit_some :
    ∀ (L : List (String × Option Locator)) (l : Locator) (s : String),
      firstHit L = some (l, s) →
      ∃ k, L.get? k = some (s, some l) ∧
        ∀ j < k, ∃ nm, L.get? j = some (nm, none)
  | [], l, s, h => by simp [firstHit] at h
  | (nm, some x) :: rest, l, s, h => by
    simp only [firstHit, Option.some.injEq, Prod.mk.injEq] at h
    refine ⟨0, ?_, by omega⟩
    simp [h.1, h.2]
  | (nm, none) :: rest, l, s, h => by
    simp only [firstHit] at h
    obtain ⟨k, hk, hprev⟩ := firstHit_some rest l s h
    refine ⟨k + 1, by simpa using hk, ?_⟩
    intro j hj
    cases j with
    | zero => exact ⟨nm, rfl⟩
    | succ j' => simpa using hprev j' (by omega)

lemma firstHit_none_iff :
    ∀ L : List (String × Option Locator),
      firstHit L = none ↔ ∀ e ∈ L, e.2 = none
  | [] => by simp [firstHit]
  | (nm, some x) :: rest => by simp [firstHit]
  | (nm, none) :: rest => by simp [firstHit, firstHit_none_iff rest]

/-- C5: when `findElement` succeeds, the winning strategy's entry in the
cascade (direct selector, then the semantic fallbacks in order, then
the selector-repair fallbacks in order) was preceded only by attempted
strategies that failed, the winning strategy's identity is returned
alongside the element, and `findElement` reports the element-not-found
error exactly when every strategy in the cascade fails. -/
theorem c5_cascade_order (p : Page) (it : Interaction) :
    (∀ l s, findElement p it = .ok (l, s) →
      ∃ k, (attemptList p it).get? k = some (s, some l) ∧
        ∀ j < k, ∃ nm, (attemptList p it).get? j = some (nm, none)) ∧
    (findElement p it =
        .error ("Could not find element with selector: " ++ it.selector) ↔
      ∀ e ∈ attemptList p it, e.2 = none) := by
  constructor
  · intro l s h
    unfold findElement at h
    cases hf : firstHit (attemptList p it) with
    | none => rw [hf] at h; simp at h
    | some r =>
      rw [hf] at h
      simp only [Except.ok.injEq] at h
      exact firstHit_some _ l s (h ▸ hf)
  · constructor
    · intro h
      cases hf : firstHit (attemptList p it) with
      | none => exact (firstHit_none_iff _).mp hf
      | some r =>
        unfold findElement at h
        rw [hf] at h
        simp at h
    · intro hall
      unfold findElement
      rw [(firstHit_none_iff _).mpr hall]

/-- A page on which no locator ever matches and every driven action throws. -/
def pageNone : Page := ⟨fun _ => false, fun _ _ => false⟩

/-- A page on which every locator matches and no driven action throws. -/
def pageAll : Page := ⟨fun _ => true, fun _ _ => false⟩

/-- The unresolvable click of the interaction-failure scenario. -/
def missingClick : Interaction := ⟨"click", ".missing", none, none, false⟩

/-- C5, witness: on a page with no matches, resolving `.missing` for a
click exhausts every cascade strategy and fails with the
element-not-found error. -/
theorem c5_witness :
    findElement pageNone missingClick =
      .error ("Could not find element with selector: " ++ missingClick.selector) := by
  exact (c5_cascade_order pageNone missingClick).2.mpr (by decide)

/-! ## Theorems: interaction-failure isolation (C6) and wait steps (C10) -/

lemma stepProcess_error (p : Page) (idx : Nat) (it : Interaction)
    (hne : it.action ≠ "wait") (e : String) (he : findElement p it = .error e) :
    stepProcess p idx it = (.errored, some ⟨errorArtName idx it.action⟩) := by
  unfold stepProcess
  rw [beq_eq_false_iff_ne.mpr hne]
  simp only [Bool.false_eq_true, if_false]
  rw [he]

lemma performInteractionsFrom_length (p : Page) :
    ∀ (i : Nat) (steps : List Interaction),
      (performInteractionsFrom p i steps).1.length = steps.length
  | _, [] => rfl
  | i, it :: rest => by
    simp [performInteractionsFrom, performInteractionsFrom_length p (i + 1) rest]

lemma performInteractionsFrom_get? (p : Page) :
    ∀ (i : Nat) (steps : List Interaction) (idx : Nat) (it : Interaction),
      steps.get? idx = some it →
      (performInteractionsFrom p i steps).1.get? idx =
        some (stepProcess p (i + idx) it).1
  | _, [], idx, it, h => by simp at h
  | i, s0 :: rest, 0, it, h => by
    simp only [List.get?_cons_zero, Option.some.injEq] at h
    subst h
    rfl
  | i, s0 :: rest, idx + 1, it, h => by
    simp only [List.get?_cons_succ] at h
    have := performInteractionsFrom_get? p (i + 1) rest idx it h
    simpa [performInteractionsFrom, Nat.add_assoc, Nat.add_comm 1 idx] using this

lemma performInteractionsFrom_art_mem (p : Page) :
    ∀ (i : Nat) (steps : List Interaction) (idx : Nat) (it : Interaction)
      (a : Artifact), steps.get? idx = some it →
      (stepProcess p (i + idx) it).2 = some a →
      a ∈ (performInteractionsFrom p i steps).2
  | _, [], idx, it, a, h, _ => by simp at h
  | i, s0 :: rest, 0, it, a, h, ha => by
    simp only [List.get?_cons_zero, Option.some.injEq] at h
    subst h
    rw [Nat.add_zero] at ha
    simp [performInteractionsFrom, ha]
  | i, s0 :: rest, idx + 1, it, a, h, ha => by
    simp only [List.get?_cons_succ] at h
    have harr : i + 1 + idx = i + (idx + 1) := by omega
    have hmem := performInteractionsFrom_art_mem p (i + 1) rest idx it a h
      (by rw [harr]; exact ha)
    simp only [performInteractionsFrom, List.mem_append]
    exact Or.inr hmem

/-- C6: the interaction engine processes every step (the outcome list
has one entry per step, so no failure aborts the sequence), and a step
whose element resolution exhausted the cascade yields the `errored`
outcome with an error artifact recorded among the produced artifacts. -/
theorem c6_failure_does_not_abort (p : Page) (steps : List Interaction) :
    ((performInteractions p steps).1.length = steps.length) ∧
    (∀ idx it, steps.get? idx = some it → it.action ≠ "wait" →
      (∀ e : String, findElement p it = .error e →
        (performInteractions p steps).1.get? idx = some .errored ∧
        (⟨errorArtName idx it.action⟩ : Artifact) ∈ (performInteractions p steps).2)) := by
  refine ⟨performInteractionsFrom_length p 0 steps, ?_⟩
  intro idx it hget hne e he
  have hsp := stepProcess_error p idx it hne e he
  constructor
  · have := performInteractionsFrom_get? p 0 steps idx it hget
    rw [Nat.zero_add] at this
    rw [performInteractions, this, hsp]
  · exact performInteractionsFrom_art_mem p 0 steps idx it _
      hget (by rw [Nat.zero_add, hsp])

/-- C6, witness: for `[{action: "click", selector: ".missing"},
{action: "wait", value: "500"}]` on a page where no strategy matches,
step 1 records the error artifact `error_interaction_1_click.png` and
step 2 still runs, pausing 500 ms. -/
theorem c6_witness :
    (performInteractions pageNone
        [missingClick, ⟨"wait", "", some "500", none, false⟩]).1 =
      [.errored, .waited 500] ∧
    (performInteractions pageNone
        [missingClick, ⟨"wait", "", some "500", none, false⟩]).2 =
      [⟨"error_interaction_1_click.png"⟩] := by
  obtain ⟨hlen, hfail⟩ := c6_failure_does_not_abort pageNone
    [missingClick, ⟨"wait", "", some "500", none, false⟩]
  obtain ⟨h0, hmem⟩ := hfail 0 missingClick rfl (by decide)
    ("Could not find element with selector: " ++ missingClick.selector) rfl
  have h1 : (performInteractions pageNone
      [missingClick, ⟨"wait", "", some "500", none, false⟩]).1.get? 1 =
      some (.waited 500) := by rfl
  constructor
  · cases houts : (performInteractions pageNone
        [missingClick, ⟨"wait", "", some "500", none, false⟩]).1 with
    | nil => rw [houts] at hlen; simp at hlen
    | cons a rest =>
      rw [houts] at h0 h1 hlen
      cases rest with
      | nil => simp at hlen
      | cons b rest2 =>
        cases rest2 with
        | nil =>
          simp only [List.get?_cons_zero, Option.some.injEq] at h0
          simp only [List.get?_cons_succ, List.get?_cons_zero,
            Option.some.injEq] at h1
          rw [h0, h1]
        | cons c rest3 => simp at hlen
  · have : (⟨"error_interaction_1_click.png"⟩ : Artifact) ∈ (performInteractions pageNone
        [missingClick, ⟨"wait", "", some "500", none, false⟩]).2 := by
      have he : errorArtName 0 "click" = "error_interaction_1_click.png" := rfl
      exact he ▸ hmem
    revert this
    exact fun _ => rfl

/-- C10: a `wait` step never touches the resolver (its result is the
same on every page) and never produces an artifact; its pause is the
integer parse of the step's value, falling back to 2000 ms when the
value is missing, non-numeric, or parses to 0. -/
theorem c10_wait_step (p q : Page) (idx : Nat) (it : Interaction)
    (h : it.action = "wait") :
    stepProcess p idx it = (.waited (waitPause it.value), none) ∧
    stepProcess p idx it = stepProcess q idx it ∧
    (jsParseInt it.value = none → waitPause it.value = 2000) ∧
    (jsParseInt it.value = some 0 → waitPause it.value = 2000) ∧
    (∀ n : Int, jsParseInt it.value = some n → n ≠ 0 → waitPause it.value = n) ∧
    (it.value = none → waitPause it.value = 2000) := by
  have hb : (it.action == "wait") = true := beq_iff_eq.mpr h
  refine ⟨?_, ?_, ?_, ?_, ?_, ?_⟩
  · unfold stepProcess
    rw [hb]
    simp
  · unfold stepProcess
    rw [hb]
    simp
  · intro hn
    unfold waitPause
    rw [hn]
  · intro hn
    unfold waitPause
    rw [hn]
    simp
  · intro n hn hnz
    unfold waitPause
    rw [hn]
    simp [hnz]
  · intro hn
    unfold waitPause
    rw [hn]
    rfl

/-- C10, witness: a concrete `wait` step with value `"500"` pauses
500 ms with no artifact on any page, and missing/non-numeric/zero
values fall back to 2000 ms. -/
theorem c10_witness :
    stepProcess pageNone 0 ⟨"wait", "", some "500", none, true⟩ =
      (.waited 500, none) ∧
    stepProcess pageNone 0 ⟨"wait", "", some "500", none, true⟩ =
      stepProcess pageAll 0 ⟨"wait", "", some "500", none, true⟩ ∧
    waitPause none = 2000 ∧ waitPause (some "abc") = 2000 ∧
    waitPause (some "0") = 2000 := by
  obtain ⟨h1, h2, _⟩ :=
    c10_wait_step pageNone pageAll 0 ⟨"wait", "", some "500", none, true⟩ rfl
  refine ⟨?_, h2, by decide, by decide, by decide⟩
  rw [h1]
  decide

/-! ## Theorems: authentication verification (C8) -/

/-- The page state of the C8 counterexample: a page with no
authenticated-session indicator at a non-login URL. -/
def plainDashPage : AuthPageState :=
  ⟨"https://a.test/dash", "/dash", "Dash", "plain", false, false, false, false⟩

/-- C8, counterexample: a cached-session restore run concludes
authenticated (result `true`, via the restore path, with fresh login
disabled) although the reloaded page shows no authenticated-session
indicator — so session indicators are not required on the restore path,
refuting the claim as stated. -/
theorem c8_counterexample :
    (handleLoginWithCache (cacheSession [] "a.test" "u1" [("sid", "1")] [] 0)
        "a.test" "u1" 1000 ⟨false, plainDashPage, false, [], []⟩).1 = true ∧
    (handleLoginWithCache (cacheSession [] "a.test" "u1" [("sid", "1")] [] 0)
        "a.test" "u1" 1000 ⟨false, plainDashPage, false, [], []⟩).2.1 =
      [.restoreAttempt, .restoredAuthenticated] ∧
    sessionIndicatorsPresent plainDashPage = false ∧
    loginOnPageEarlyAuthenticated plainDashPage = false := by
  refine ⟨rfl, rfl, by decide, by decide⟩

/-- C8, amended: in `loginOnPage`'s status check, the already-
authenticated conclusion holds iff session indicators are present and
login-page indicators are simultaneously absent; but in the
cached-session restore path, `Authenticated` is concluded from the
reloaded URL not being login-like alone, without consulting session
indicators. -/
theorem c8_amended (s : AuthPageState) (cache : SessionCache) (d u : String)
    (now : Nat) (env : LoginEnv) :
    (loginOnPageEarlyAuthenticated s = true ↔
      (sessionIndicatorsPresent s = true ∧ loginIndicatorsPresent s = false)) ∧
    ((getCachedSession cache d u now).1.isSome = true →
      env.restoreThrows = false →
      restoreVerifyAuthenticated env.reloadedPage = true →
      handleLoginWithCache cache d u now env =
        (true, [.restoreAttempt, .restoredAuthenticated],
          (getCachedSession cache d u now).2)) := by
  constructor
  · simp [loginOnPageEarlyAuthenticated, Bool.and_eq_true, Bool.not_eq_true']
  · intro hsome hthrow hverify
    rcases hg : getCachedSession cache d u now with ⟨o, c2⟩
    rw [hg] at hsome
    cases o with
    | none => simp at hsome
    | some sess =>
      unfold handleLoginWithCache
      rw [hg, hthrow, hverify]
      simp

/-- C8 (amended), witness: a page with a logout affordance and no login
cues is concluded authenticated by `loginOnPage`'s check, and a
concrete valid cached-session restore at a non-login URL concludes
authenticated. -/
theorem c8_witness :
    loginOnPageEarlyAuthenticated
      ⟨"https://a.test/dash", "/dash", "Dash", "plain", true, false, false, false⟩ =
      true ∧
    handleLoginWithCache (cacheSession [] "a.test" "u1" [("sid", "1")] [] 0)
        "a.test" "u1" 1000 ⟨false, plainDashPage, true, [], []⟩ =
      (true, [.restoreAttempt, .restoredAuthenticated],
        (getCachedSession (cacheSession [] "a.test" "u1" [("sid", "1")] [] 0)
          "a.test" "u1" 1000).2) := by
  obtain ⟨h1, h2⟩ := c8_amended
    ⟨"https://a.test/dash", "/dash", "Dash", "plain", true, false, false, false⟩
    (cacheSession [] "a.test" "u1" [("sid", "1")] [] 0) "a.test" "u1" 1000
    ⟨false, plainDashPage, true, [], []⟩
  exact ⟨h1.mpr (by decide), h2 (by decide) rfl (by decide)⟩

/-! ## Decimal rendering: injectivity of `Nat.repr`

The artifact names embed decimal indices/offsets via `Nat.repr`; their
distinctness rests on `Nat.repr` being injective and producing digit
characters only, proved here by a parse round-trip over the core
`Nat.toDigitsCore`. -/

/-- Decimal value of a digit character. -/
def digitToNat (c : Char) : Nat := c.toNat - '0'.toNat

/-- Parse a most-significant-first digit string. -/
def parseDigits (l : List Char) : Nat :=
  l.foldl (fun a c => a * 10 + digitToNat c) 0

lemma digitChar_isDigit {d : Nat} (h : d < 10) : (Nat.digitChar d).isDigit = true := by
  interval_cases d <;> decide

lemma digitToNat_digitChar {d : Nat} (h : d < 10) : digitToNat (Nat.digitChar d) = d := by
  interval_cases d <;> decide

lemma toDigitsCore_append (b : Nat) :
    ∀ (fuel n : Nat) (ds : List Char),
      Nat.toDigitsCore b fuel n ds = Nat.toDigitsCore b fuel n [] ++ ds
  | 0, _, _ => rfl
  | fuel + 1, n, ds => by
    simp only [Nat.toDigitsCore]
    by_cases h : n / b = 0
    · simp [h]
    · rw [if_neg h, if_neg h,
        toDigitsCore_append b fuel (n / b) (Nat.digitChar (n % b) :: ds),
        toDigitsCore_append b fuel (n / b) [Nat.digitChar (n % b)],
        List.append_assoc]
      rfl

lemma toDigitsCore_all_digits :
    ∀ (fuel n : Nat) (ds : List Char), (∀ c ∈ ds, c.isDigit = true) →
      ∀ c ∈ Nat.toDigitsCore 10 fuel n ds, c.isDigit = true
  | 0, _, _, hds => hds
  | fuel + 1, n, ds, hds => by
    simp only [Nat.toDigitsCore]
    have hd : (Nat.digitChar (n % 10)).isDigit = true :=
      digitChar_isDigit (Nat.mod_lt _ (by omega))
    by_cases h : n / 10 = 0
    · rw [if_pos h]
      intro c hc
      rcases List.mem_cons.mp hc with rfl | hc
      · exact hd
      · exact hds c hc
    · rw [if_neg h]
      refine toDigitsCore_all_digits fuel (n / 10) _ ?_
      intro c hc
      rcases List.mem_cons.mp hc with rfl | hc
      · exact hd
      · exact hds c hc

lemma repr_all_digits (n : Nat) : ∀ c ∈ (Nat.repr n).data, c.isDigit = true :=
  toDigitsCore_all_digits (n + 1) n [] (by simp)

lemma parseDigits_toDigitsCore :
    ∀ (fuel n : Nat), n < fuel →
      parseDigits (Nat.toDigitsCore 10 fuel n []) = n := by
  intro fuel
  induction fuel with
  | zero => omega
  | succ fuel ih =>
    intro n hn
    simp only [Nat.toDigitsCore]
    by_cases h : n / 10 = 0
    · rw [if_pos h]
      have hn10 : n < 10 := (Nat.div_eq_zero_iff (by norm_num)).mp h
      rw [show n % 10 = n from Nat.mod_eq_of_lt hn10]
      simp [parseDigits, digitToNat_digitChar hn10]
    · rw [if_neg h]
      rw [toDigitsCore_append 10 fuel (n / 10) [Nat.digitChar (n % 10)]]
      have hnpos : 0 < n := Nat.pos_of_ne_zero fun h0 => h (by simp [h0])
      have hdivlt : n / 10 < n := Nat.div_lt_self hnpos (by omega)
      have hih := ih (n / 10) (by omega)
      unfold parseDigits at hih ⊢
      rw [List.foldl_append]
      simp only [List.foldl_cons, List.foldl_nil]
      rw [hih, digitToNat_digitChar (Nat.mod_lt _ (by omega))]
      have := Nat.div_add_mod n 10
      omega

lemma repr_injective {m n : Nat} (h : Nat.repr m = Nat.repr n) : m = n := by
  have hd : Nat.toDigits 10 m = Nat.toDigits 10 n := congrArg String.data h
  have hm := parseDigits_toDigitsCore (m + 1) m (by omega)
  have hn := parseDigits_toDigitsCore (n + 1) n (by omega)
  rw [show Nat.toDigitsCore 10 (m + 1) m [] = Nat.toDigits 10 m from rfl] at hm
  rw [show Nat.toDigitsCore 10 (n + 1) n [] = Nat.toDigits 10 n from rfl] at hn
  rw [← hm, ← hn, hd]

lemma digits_underscore_cancel :
    ∀ (a b r1 r2 : List Char),
      (∀ c ∈ a, c.isDigit = true) → (∀ c ∈ b, c.isDigit = true) →
      a ++ '_' :: r1 = b ++ '_' :: r2 → a = b ∧ r1 = r2
  | [], [], r1, r2, _, _, h => by
    simp only [List.nil_append, List.cons.injEq] at h
    exact ⟨rfl, h.2⟩
  | [], c :: bs, r1, r2, _, hb, h => by
    simp only [List.nil_append, List.cons_append, List.cons.injEq] at h
    have := hb c (List.mem_cons_self c bs)
    rw [← h.1] at this
    exact absurd this (by decide)
  | c :: as, [], r1, r2, ha, _, h => by
    simp only [List.nil_append, List.cons_append, List.cons.injEq] at h
    have := ha c (List.mem_cons_self c as)
    rw [h.1] at this
    exact absurd this (by decide)
  | c :: as, c' :: bs, r1, r2, ha, hb, h => by
    simp only [List.cons_append, List.cons.injEq] at h
    obtain ⟨e1, e2⟩ := digits_underscore_cancel as bs r1 r2
      (fun x hx => ha x (List.mem_cons_of_mem c hx))
      (fun x hx => hb x (List.mem_cons_of_mem c' hx)) h.2
    exact ⟨by rw [h.1, e1], e2⟩

/-- Cancel two decimal segments that are each followed by `'_'`. -/
lemma repr_underscore_inj {m n : Nat} {r1 r2 : List Char}
    (h : (Nat.repr m).data ++ '_' :: r1 = (Nat.repr n).data ++ '_' :: r2) :
    m = n ∧ r1 = r2 := by
  obtain ⟨e1, e2⟩ := digits_underscore_cancel _ _ _ _
    (repr_all_digits m) (repr_all_digits n) h
  exact ⟨repr_injective (String.ext e1), e2⟩

/-! ## Artifact-name shape lemmas (C9) -/

/-- The `action` values admitted by the tool's input schema. -/
def allowedActions : List String :=
  ["click", "hover", "scroll", "fill", "select", "wait"]

lemma interArtName_data (i : Nat) (a : String) :
    (interArtName i a).data =
      ("interaction_" : String).data ++
        ((Nat.repr (i + 1)).data ++ '_' :: (a.data ++ (".png" : String).data)) := by
  have h1 : ("_" : String).data = ['_'] := rfl
  simp only [interArtName, String.data_append, h1, List.singleton_append]

lemma errorArtName_data (i : Nat) (a : String) :
    (errorArtName i a).data =
      ("error_interaction_" : String).data ++
        ((Nat.repr (i + 1)).data ++ '_' :: (a.data ++ (".png" : String).data)) := by
  have h1 : ("_" : String).data = ['_'] := rfl
  simp only [errorArtName, String.data_append, h1, List.singleton_append]

lemma interArtName_inj {i j : Nat} {a b : String}
    (h : interArtName i a = interArtName j b) : i = j := by
  have hd := congrArg String.data h
  rw [interArtName_data, interArtName_data] at hd
  obtain ⟨e1, _⟩ := repr_underscore_inj (List.append_cancel_left hd)
  omega

lemma errorArtName_inj {i j : Nat} {a b : String}
    (h : errorArtName i a = errorArtName j b) : i = j := by
  have hd := congrArg String.data h
  rw [errorArtName_data, errorArtName_data] at hd
  obtain ⟨e1, _⟩ := repr_underscore_inj (List.append_cancel_left hd)
  omega

lemma interArtName_ne_errorArtName (i j : Nat) (a b : String) :
    interArtName i a ≠ errorArtName j b := by
  intro h
  have hd := congrArg String.data h
  rw [interArtName_data, errorArtName_data] at hd
  rw [show ("interaction_" : String).data = 'i' :: ("nteraction_" : String).data from rfl,
    show ("error_interaction_" : String).data =
      'e' :: ("rror_interaction_" : String).data from rfl] at hd
  simp only [List.cons_append, List.cons.injEq] at hd
  exact absurd hd.1 (by decide)

lemma scrollStepName_data (base : String) (k off : Nat) :
    (scrollStepName base k off).data =
      base.data ++ (("_scroll_" : String).data ++ ((Nat.repr k).data ++
        '_' :: ((Nat.repr off).data ++ ("px.png" : String).data))) := by
  have h1 : ("_" : String).data = ['_'] := rfl
  simp only [scrollStepName, String.data_append, h1, List.singleton_append]

lemma scrollTopName_data (base : String) :
    (scrollTopName base).data =
      base.data ++ (("_scroll_" : String).data ++ ((Nat.repr 0).data ++
        '_' :: ("top.png" : String).data)) := by
  have h1 : ("_top.png" : String).data = '_' :: ("top.png" : String).data := rfl
  simp only [scrollTopName, String.data_append, h1]

lemma scrollStepName_inj {base : String} {k1 k2 o1 o2 : Nat}
    (h : scrollStepName base k1 o1 = scrollStepName base k2 o2) : k1 = k2 := by
  have hd := congrArg String.data h
  rw [scrollStepName_data, scrollStepName_data] at hd
  obtain ⟨e1, _⟩ :=
    repr_underscore_inj (List.append_cancel_left (List.append_cancel_left hd))
  exact e1

lemma scrollTopName_ne_stepName (base : String) (k off : Nat) (hk : 1 ≤ k) :
    scrollTopName base ≠ scrollStepName base k off := by
  intro h
  have hd := congrArg String.data h
  rw [scrollTopName_data, scrollStepName_data] at hd
  obtain ⟨e1, _⟩ :=
    repr_underscore_inj (List.append_cancel_left (List.append_cancel_left hd))
  omega

lemma fullPageName_ne_scrollTopName (base : String) :
    fullPageName base ≠ scrollTopName base := by
  intro h
  have hd := congrArg String.data h
  rw [scrollTopName_data] at hd
  unfold fullPageName at hd
  rw [String.data_append] at hd
  have h2 := List.append_cancel_left hd
  rw [show ("_fullpage.png" : String).data =
      '_' :: 'f' :: ("ullpage.png" : String).data from rfl,
    show ("_scroll_" : String).data = '_' :: 's' :: ("croll_" : String).data from rfl]
    at h2
  simp only [List.cons_append, List.cons.injEq] at h2
  exact absurd h2.2.1 (by decide)

lemma fullPageName_ne_scrollStepName (base : String) (k off : Nat) :
    fullPageName base ≠ scrollStepName base k off := by
  intro h
  have hd := congrArg String.data h
  rw [scrollStepName_data] at hd
  unfold fullPageName at hd
  rw [String.data_append] at hd
  have h2 := List.append_cancel_left hd
  rw [show ("_fullpage.png" : String).data =
      '_' :: 'f' :: ("ullpage.png" : String).data from rfl,
    show ("_scroll_" : String).data = '_' :: 's' :: ("croll_" : String).data from rfl]
    at h2
  simp only [List.cons_append, List.cons.injEq] at h2
  exact absurd h2.2.1 (by decide)

/-- The `k`-th character from the end of a string. -/
def revGet (s : String) (k : Nat) : Option Char := s.data.reverse[k]?

lemma revGet_append {s t : String} {k : Nat} (h : k < t.data.reverse.length) :
    revGet (s ++ t) k = t.data.reverse[k]? := by
  unfold revGet
  rw [String.data_append, List.reverse_append, List.getElem?_append_left h]

lemma revGet4_interArtName (i : Nat) (a : String) (ha : a ∈ allowedActions) :
    revGet (interArtName i a) 4 ∈
      ([some 'k', some 'r', some 'l', some 't'] : List (Option Char)) := by
  have hgroup : interArtName i a =
      (("interaction_" ++ Nat.repr (i + 1)) ++ "_") ++ (a ++ ".png") := by
    simp [interArtName, String.append_assoc]
  rw [hgroup]
  simp only [allowedActions, List.mem_cons, List.not_mem_nil, or_false] at ha
  rcases ha with rfl | rfl | rfl | rfl | rfl | rfl <;>
    (rw [revGet_append (by decide)]; decide)

lemma revGet4_errorArtName (i : Nat) (a : String) (ha : a ∈ allowedActions) :
    revGet (errorArtName i a) 4 ∈
      ([some 'k', some 'r', some 'l', some 't'] : List (Option Char)) := by
  have hgroup : errorArtName i a =
      (("error_interaction_" ++ Nat.repr (i + 1)) ++ "_") ++ (a ++ ".png") := by
    simp [errorArtName, String.append_assoc]
  rw [hgroup]
  simp only [allowedActions, List.mem_cons, List.not_mem_nil, or_false] at ha
  rcases ha with rfl | rfl | rfl | rfl | rfl | rfl <;>
    (rw [revGet_append (by decide)]; decide)

lemma revGet4_scrollTopName (base : String) :
    revGet (scrollTopName base) 4 = some 'p' := by
  have hgroup : scrollTopName base =
      (base ++ ("_scroll_" ++ Nat.repr 0)) ++ "_top.png" := by
    simp [scrollTopName, String.append_assoc]
  rw [hgroup, revGet_append (by decide)]
  decide

lemma revGet4_scrollStepName (base : String) (k off : Nat) :
    revGet (scrollStepName base k off) 4 = some 'x' := by
  have hgroup : scrollStepName base k off =
      (base ++ ("_scroll_" ++ (Nat.repr k ++ ("_" ++ Nat.repr off)))) ++ "px.png" := by
    simp [scrollStepName, String.append_assoc]
  rw [hgroup, revGet_append (by decide)]
  decide

lemma revGet4_fullPageName (base : String) :
    revGet (fullPageName base) 4 = some 'e' := by
  rw [fullPageName, revGet_append (by decide)]
  decide

/-! ## Theorems: artifact-name distinctness (C9) -/

lemma artifact_name_injective : Function.Injective Artifact.name := by
  intro a b h
  cases a
  cases b
  simpa using h

lemma stepProcess_art_name (p : Page) (idx : Nat) (it : Interaction) (a : Artifact)
    (h : (stepProcess p idx it).2 = some a) :
    a.name = interArtName idx it.action ∨ a.name = errorArtName idx it.action := by
  unfold stepProcess at h
  by_cases hw : (it.action == "wait") = true
  · rw [hw] at h
    simp at h
  · rw [Bool.not_eq_true] at hw
    rw [hw] at h
    simp only [Bool.false_eq_true, if_false] at h
    cases hf : findElement p it with
    | error e =>
      rw [hf] at h
      simp only [Option.some.injEq] at h
      right
      rw [← h]
    | ok r =>
      rw [hf] at h
      obtain ⟨loc, strat⟩ := r
      simp only at h
      by_cases ht : p.actionThrows it.action loc = true
      · rw [ht] at h
        simp only [if_true, Option.some.injEq] at h
        right
        rw [← h]
      · rw [Bool.not_eq_true] at ht
        rw [ht] at h
        simp only [Bool.false_eq_true, if_false] at h
        by_cases hs : it.screenshot = true
        · rw [hs] at h
          simp only [if_true, Option.some.injEq] at h
          left
          rw [← h]
        · rw [Bool.not_eq_true] at hs
          rw [hs] at h
          simp at h

lemma mem_performInteractionsFrom_art (p : Page) :
    ∀ (i : Nat) (steps : List Interaction) (a : Artifact),
      a ∈ (performInteractionsFrom p i steps).2 →
      ∃ j it, steps.get? j = some it ∧ (stepProcess p (i + j) it).2 = some a
  | _, [], a, h => by simp [performInteractionsFrom] at h
  | i, s0 :: rest, a, h => by
    simp only [performInteractionsFrom, List.mem_append] at h
    rcases h with h | h
    · refine ⟨0, s0, rfl, ?_⟩
      rw [Nat.add_zero]
      cases hs : (stepProcess p i s0).2 with
      | none => rw [hs] at h; simp at h
      | some b =>
        rw [hs] at h
        simp only [Option.toList_some, List.mem_singleton] at h
        rw [h]
    · obtain ⟨j, it, hj, hsp⟩ := mem_performInteractionsFrom_art p (i + 1) rest a h
      refine ⟨j + 1, it, by simpa using hj, ?_⟩
      rw [show i + (j + 1) = i + 1 + j by omega]
      exact hsp

lemma performInteractionsFrom_art_nodup (p : Page) :
    ∀ (i : Nat) (steps : List Interaction),
      (performInteractionsFrom p i steps).2.Nodup
  | _, [] => by simp [performInteractionsFrom]
  | i, s0 :: rest => by
    simp only [performInteractionsFrom]
    refine List.Nodup.append ?_ (performInteractionsFrom_art_nodup p (i + 1) rest) ?_
    · cases (stepProcess p i s0).2 <;> simp
    · intro a ha hb
      have hsome : (stepProcess p i s0).2 = some a := by
        cases hs : (stepProcess p i s0).2 with
        | none => rw [hs] at ha; simp at ha
        | some b =>
          rw [hs] at ha
          simp only [Option.toList_some, List.mem_singleton] at ha
          rw [ha]
      have hname1 := stepProcess_art_name p i s0 a hsome
      obtain ⟨j, it, hj, hsp⟩ := mem_performInteractionsFrom_art p (i + 1) rest a hb
      have hname2 := stepProcess_art_name p (i + 1 + j) it a hsp
      rcases hname1 with h1 | h1 <;> rcases hname2 with h2 | h2
      · have := interArtName_inj (h1.symm.trans h2)
        omega
      · exact interArtName_ne_errorArtName _ _ _ _ (h1.symm.trans h2)
      · exact interArtName_ne_errorArtName _ _ _ _ (h2.symm.trans h1)
      · have := errorArtName_inj (h1.symm.trans h2)
        omega

lemma mem_scrollArtifacts (base : String) (p : ScrollPageInfo) (a : Artifact)
    (h : a ∈ scrollArtifacts base p) :
    a.name = scrollTopName base ∨
      ∃ k off, 1 ≤ k ∧ a.name = scrollStepName base k off := by
  unfold scrollArtifacts at h
  rcases List.mem_cons.mp h with rfl | h
  · exact Or.inl rfl
  · by_cases hr : scrollLoopRuns p = true
    · rw [if_pos hr] at h
      obtain ⟨k, hk, rfl⟩ := List.mem_map.mp h
      exact Or.inr ⟨k, _, (List.mem_range'_1.mp hk).1, rfl⟩
    · rw [if_neg hr] at h
      simp at h

lemma scrollArtifacts_nodup (base : String) (p : ScrollPageInfo) :
    (scrollArtifacts base p).Nodup := by
  unfold scrollArtifacts
  rw [List.nodup_cons]
  constructor
  · intro hmem
    by_cases hr : scrollLoopRuns p = true
    · rw [if_pos hr] at hmem
      obtain ⟨k, hk, he⟩ := List.mem_map.mp hmem
      have hk1 : 1 ≤ k := (List.mem_range'_1.mp hk).1
      exact scrollTopName_ne_stepName base k _ hk1
        (congrArg Artifact.name he).symm
    · rw [if_neg hr] at hmem
      simp at hmem
  · by_cases hr : scrollLoopRuns p = true
    · rw [if_pos hr]
      refine List.Nodup.map_on ?_ (List.nodup_range' _ _ 1 (by decide))
      intro k1 h1 k2 h2 he
      exact scrollStepName_inj (congrArg Artifact.name he)
    · rw [if_neg hr]
      simp

/-- C9, amended: without a navigation flow, every artifact name of one
capture request — interaction and error artifacts, the top frame, the
scroll-step frames and the full-page frame — is distinct from every
other. -/
theorem c9_amended (base : String) (p : ScrollPageInfo) (page : Page)
    (steps : List Interaction) (scrollOn fullOn : Bool)
    (hact : ∀ it ∈ steps, it.action ∈ allowedActions) :
    ((captureScreenshots base scrollOn fullOn
        (performInteractions page steps).2 [] p).map Artifact.name).Nodup := by
  have hcap : captureScreenshots base scrollOn fullOn
      (performInteractions page steps).2 [] p =
      (performInteractions page steps).2 ++
        ((if scrollOn then scrollArtifacts base p else []) ++
          (if fullOn then [⟨fullPageName base⟩] else [])) := by
    simp [captureScreenshots]
  rw [hcap, List.map_append]
  refine List.Nodup.append ?_ ?_ ?_
  · exact (performInteractionsFrom_art_nodup page 0 steps).map artifact_name_injective
  · rw [List.map_append]
    refine List.Nodup.append ?_ ?_ ?_
    · cases scrollOn with
      | false => simp
      | true =>
        simpa using (scrollArtifacts_nodup base p).map artifact_name_injective
    · cases fullOn <;> simp
    · intro x hx hy
      cases scrollOn with
      | false => simp at hx
      | true =>
        simp only [if_true] at hx
        obtain ⟨b, hb, rfl⟩ := List.mem_map.mp hx
        cases fullOn with
        | false => simp at hy
        | true =>
          simp only [if_true, List.map_cons, List.map_nil,
            List.mem_singleton] at hy
          rcases mem_scrollArtifacts base p b hb with h | ⟨k, off, hk, h⟩
          · rw [h] at hy
            exact fullPageName_ne_scrollTopName base hy.symm
          · rw [h] at hy
            exact fullPageName_ne_scrollStepName base k off hy.symm
  · intro x hx hy
    obtain ⟨a, ha, rfl⟩ := List.mem_map.mp hx
    obtain ⟨j, it, hj, hsp⟩ := mem_performInteractionsFrom_art page 0 steps a ha
    have hallowed : it.action ∈ allowedActions := hact it (List.get?_mem hj)
    have h4 : revGet a.name 4 ∈
        ([some 'k', some 'r', some 'l', some 't'] : List (Option Char)) := by
      rcases stepProcess_art_name page (0 + j) it a hsp with h | h
      · rw [h]
        exact revGet4_interArtName _ _ hallowed
      · rw [h]
        exact revGet4_errorArtName _ _ hallowed
    rw [List.map_append, List.mem_append] at hy
    rcases hy with hy | hy
    · cases scrollOn with
      | false => simp at hy
      | true =>
        simp only [if_true] at hy
        obtain ⟨b, hb, he⟩ := List.mem_map.mp hy
        rw [← he] at h4
        rcases mem_scrollArtifacts base p b hb with h | ⟨k, off, _, h⟩
        · rw [h, revGet4_scrollTopName] at h4
          exact absurd h4 (by decide)
        · rw [h, revGet4_scrollStepName] at h4
          exact absurd h4 (by decide)
    · cases fullOn with
      | false => simp at hy
      | true =>
        simp only [if_true, List.map_cons, List.map_nil,
          List.mem_singleton] at hy
        rw [hy, revGet4_fullPageName] at h4
        exact absurd h4 (by decide)

/-- The navigation environment of the C9 counterexample: the root page
links to `/a_b` and `/a/b`, two distinct URLs that normalise to the same
base name. -/
def navCfgC9 : NavConfig where
  links := fun u =>
    if u = "https://a.test/" then ["https://a.test/a_b", "https://a.test/a/b"]
    else []
  parts := fun u =>
    if u = "https://a.test/a_b" then ("/a_b", "")
    else if u = "https://a.test/a/b" then ("/a/b", "")
    else ("/", "")
  maxDepth := 2
  exclude := []
  shotEach := true

/-- C9, counterexample: a navigation flow visiting `/a_b` and `/a/b` at
depth 1 produces two artifacts both named `nav_1_a_b.png`, so the
artifact names of this request are not pairwise distinct. -/
theorem c9_counterexample :
    (navigatePages navCfgC9 "https://a.test/").map Artifact.name =
      ["nav_0_homepage.png", "nav_1_a_b.png", "nav_1_a_b.png"] ∧
    ¬ ((captureScreenshots "page" true true []
          (navigatePages navCfgC9 "https://a.test/") scenarioPage).map
        Artifact.name).Nodup := by
  refine ⟨rfl, ?_⟩
  have h2 : (captureScreenshots "page" true true []
      (navigatePages navCfgC9 "https://a.test/") scenarioPage).map Artifact.name =
      ["nav_0_homepage.png", "nav_1_a_b.png", "nav_1_a_b.png"] := rfl
  rw [h2]
  decide

/-- C9 (amended), witness: a concrete request with three interactions
(two screenshots, one pause), scroll capture and full-page capture
yields pairwise-distinct artifact names. -/
theorem c9_witness :
    ((captureScreenshots "dash" true true
        (performInteractions pageAll
          [⟨"click", "button", some "Go", none, true⟩,
            ⟨"wait", "", some "100", none, false⟩,
            ⟨"fill", "#q", some "x", none, true⟩]).2 [] scenarioPage).map
      Artifact.name).Nodup := by
  exact c9_amended "dash" scenarioPage pageAll
    [⟨"click", "button", some "Go", none, true⟩,
      ⟨"wait", "", some "100", none, false⟩,
      ⟨"fill", "#q", some "x", none, true⟩] true true (by decide)

end MCPScreenshot
